import Mathlib

/-!
Verification of the winsign document-signing application's core pipeline:
the pointer/canvas/PDF coordinate transforms of the signature editor, the
render-token cancellation discipline of the page renderer, the burn-in
compositor's coordinate flip and per-field error handling, and the file
effects of the sign and download operations.

All numeric quantities are modelled over the rationals; JavaScript numbers
are IEEE doubles, and every property below is exact rational arithmetic,
so the rational model captures the computation up to floating-point
rounding (which the specification explicitly tolerates).
-/

/-! ## Coordinate transforms of the signature editor (SignatureEditor.jsx)

A rendered page surface is characterised by its measured on-screen
bounding box (`getBoundingClientRect`), the canvas backing-store pixel
dimensions (`canvas.width` / `canvas.height`) and the device pixel ratio
active at render time. -/

/-- Geometry of one rendered page surface: bounding-box size (`rectWidth`,
`rectHeight`), backing-store size (`canvasWidth`, `canvasHeight`) and
device pixel ratio `dpr`. -/
structure CanvasGeom where
  rectWidth : ℚ
  rectHeight : ℚ
  canvasWidth : ℚ
  canvasHeight : ℚ
  dpr : ℚ

/-- Forward placement transform of `handleCanvasClick`: pointer
coordinates relative to the bounding box are mapped to stored field
coordinates by `((p / rect) * canvas) / devicePixelRatio`. -/
def handleCanvasClickTransform (g : CanvasGeom) (px py : ℚ) : ℚ × ℚ :=
  (((px / g.rectWidth) * g.canvasWidth) / g.dpr,
   ((py / g.rectHeight) * g.canvasHeight) / g.dpr)

/-- Horizontal render ratio of `renderSignatureField` (and of the drag and
resize handlers): `rect.width / (canvas.width / devicePixelRatio)`. -/
def renderScaleX (g : CanvasGeom) : ℚ :=
  g.rectWidth / (g.canvasWidth / g.dpr)

/-- Vertical render ratio of `renderSignatureField`:
`rect.height / (canvas.height / devicePixelRatio)`. -/
def renderScaleY (g : CanvasGeom) : ℚ :=
  g.rectHeight / (g.canvasHeight / g.dpr)

/-- Reverse render transform of `renderSignatureField`: a stored field
coordinate is placed on screen at `stored * scaleX` (resp. `scaleY`). -/
def renderSignatureFieldPos (g : CanvasGeom) (sx sy : ℚ) : ℚ × ℚ :=
  (sx * renderScaleX g, sy * renderScaleY g)

/-! ## Zoom scale model (SignatureEditor.jsx / PdfPreview.jsx) -/

/-- Zoom step constant `SCALE_STEP = 0.25`. -/
def SCALE_STEP : ℚ := 0.25

/-- Minimum zoom constant `MIN_SCALE = 0.25`. -/
def MIN_SCALE : ℚ := 0.25

/-- Default zoom constant `DEFAULT_SCALE = 0.75`. -/
def DEFAULT_SCALE : ℚ := 0.75

/-- Maximum zoom constant `MAX_SCALE = 2.5`. -/
def MAX_SCALE : ℚ := 2.5

/-- The operations that touch the zoom scale: loading a document resets it
to the default, the zoom buttons step it with clamping. -/
inductive ZoomOp where
  | loadDocument : ZoomOp
  | zoomIn : ZoomOp
  | zoomOut : ZoomOp

/-- One zoom/load operation applied to the current scale, as in the
`setScale` calls of both components. -/
def applyZoom (s : ℚ) : ZoomOp → ℚ
  | ZoomOp.loadDocument => DEFAULT_SCALE
  | ZoomOp.zoomIn => min MAX_SCALE (s + SCALE_STEP)
  | ZoomOp.zoomOut => max MIN_SCALE (s - SCALE_STEP)

/-- The scale after a sequence of zoom/load operations, starting from the
initial `DEFAULT_SCALE`. -/
def runZoom (ops : List ZoomOp) : ℚ :=
  ops.foldl applyZoom DEFAULT_SCALE

/-- The scale representation invariant: a quarter-integer between 1/4 and
10/4. -/
def ZoomInv (s : ℚ) : Prop :=
  ∃ k : ℕ, 1 ≤ k ∧ k ≤ 10 ∧ s = (k : ℚ) / 4

lemma zoomInv_default : ZoomInv DEFAULT_SCALE :=
  ⟨3, by norm_num, by norm_num, by norm_num [DEFAULT_SCALE]⟩

lemma zoomInv_apply {s : ℚ} (h : ZoomInv s) (op : ZoomOp) :
    ZoomInv (applyZoom s op) := by
  obtain ⟨k, hk1, hk10, rfl⟩ := h
  cases op with
  | loadDocument => exact zoomInv_default
  | zoomIn =>
    rcases le_or_lt (k + 1) 10 with h10 | h10
    · refine ⟨k + 1, by omega, h10, ?_⟩
      have hle : (k : ℚ) / 4 + SCALE_STEP ≤ MAX_SCALE := by
        rw [SCALE_STEP, MAX_SCALE]
        have : (k : ℚ) ≤ 9 := by exact_mod_cast (by omega : k ≤ 9)
        norm_num
        linarith
      rw [applyZoom, min_eq_right hle, SCALE_STEP]
      push_cast
      ring
    · have hk : k = 10 := by omega
      refine ⟨10, by norm_num, le_refl 10, ?_⟩
      subst hk
      have hge : MAX_SCALE ≤ (10 : ℚ) / 4 + SCALE_STEP := by
        rw [SCALE_STEP, MAX_SCALE]; norm_num
      rw [applyZoom]
      push_cast
      rw [min_eq_left (by rw [SCALE_STEP, MAX_SCALE]; norm_num)]
      rw [MAX_SCALE]; norm_num
  | zoomOut =>
    rcases Nat.lt_or_ge 1 k with h2 | h2
    · refine ⟨k - 1, by omega, by omega, ?_⟩
      have hcast : ((k - 1 : ℕ) : ℚ) = (k : ℚ) - 1 := by
        have : (1 : ℕ) ≤ k := hk1
        push_cast [this]
        ring
      have hge : MIN_SCALE ≤ (k : ℚ) / 4 - SCALE_STEP := by
        rw [SCALE_STEP, MIN_SCALE]
        have : (2 : ℚ) ≤ (k : ℚ) := by exact_mod_cast (by omega : 2 ≤ k)
        linarith
      rw [applyZoom, max_eq_right hge, hcast, SCALE_STEP]
      ring
    · have hk : k = 1 := by omega
      subst hk
      refine ⟨1, le_refl 1, by norm_num, ?_⟩
      rw [applyZoom]
      rw [max_eq_left (by rw [SCALE_STEP, MIN_SCALE]; norm_num)]
      rw [MIN_SCALE]; norm_num

lemma zoomInv_foldl (ops : List ZoomOp) :
    ∀ s : ℚ, ZoomInv s → ZoomInv (ops.foldl applyZoom s) := by
  induction ops with
  | nil => intro s hs; simpa using hs
  | cons op rest ih =>
    intro s hs
    exact ih (applyZoom s op) (zoomInv_apply hs op)

/-- Claim C10: starting from the default scale 0.75, any sequence of
document loads (reset to 0.75), zoom-out steps (`max(0.25, s - 0.25)`)
and zoom-in steps (`min(2.5, s + 0.25)`) leaves the zoom scale within the
closed interval [0.25, 2.5] and a natural multiple of 0.25. -/
theorem zoom_scale_invariant (ops : List ZoomOp) :
    MIN_SCALE ≤ runZoom ops ∧ runZoom ops ≤ MAX_SCALE ∧
      ∃ k : ℕ, runZoom ops = (k : ℚ) * SCALE_STEP := by
  obtain ⟨k, hk1, hk10, hs⟩ := zoomInv_foldl ops DEFAULT_SCALE zoomInv_default
  rw [runZoom, hs]
  refine ⟨?_, ?_, ⟨k, ?_⟩⟩
  · rw [MIN_SCALE]
    have : (1 : ℚ) ≤ (k : ℚ) := by exact_mod_cast hk1
    norm_num
    linarith
  · rw [MAX_SCALE]
    have : (k : ℚ) ≤ 10 := by exact_mod_cast hk10
    norm_num
    linarith
  · rw [SCALE_STEP]
    norm_num
    ring

/-- Claim C1: at a fixed surface geometry (positive bounding-box and
backing-store dimensions and device pixel ratio), the reverse render
transform of `renderSignatureField` applied to the forward placement
transform of `handleCanvasClick` returns every pointer coordinate
unchanged (exactly, over the rationals). -/
theorem forward_reverse_round_trip (g : CanvasGeom) (px py : ℚ)
    (hbw : 0 < g.rectWidth) (hbh : 0 < g.rectHeight)
    (hcw : 0 < g.canvasWidth) (hch : 0 < g.canvasHeight) (hd : 0 < g.dpr) :
    renderSignatureFieldPos g
        (handleCanvasClickTransform g px py).1
        (handleCanvasClickTransform g px py).2 = (px, py) := by
  rw [renderSignatureFieldPos, handleCanvasClickTransform, renderScaleX, renderScaleY]
  have h1 : g.rectWidth ≠ 0 := ne_of_gt hbw
  have h2 : g.rectHeight ≠ 0 := ne_of_gt hbh
  have h3 : g.canvasWidth ≠ 0 := ne_of_gt hcw
  have h4 : g.canvasHeight ≠ 0 := ne_of_gt hch
  have h5 : g.dpr ≠ 0 := ne_of_gt hd
  refine Prod.ext ?_ ?_
  · show ((px / g.rectWidth) * g.canvasWidth) / g.dpr *
      (g.rectWidth / (g.canvasWidth / g.dpr)) = px
    field_simp
  · show ((py / g.rectHeight) * g.canvasHeight) / g.dpr *
      (g.rectHeight / (g.canvasHeight / g.dpr)) = py
    field_simp

/-- Witness for claim C1: the round trip at a concrete geometry
(bounding box 800×1000, backing store 1200×1500, device pixel ratio 2)
recovers the pointer point (137, 41). -/
theorem forward_reverse_round_trip_witness :
    (0 : ℚ) < 800 ∧
      renderSignatureFieldPos ⟨800, 1000, 1200, 1500, 2⟩
        (handleCanvasClickTransform ⟨800, 1000, 1200, 1500, 2⟩ 137 41).1
        (handleCanvasClickTransform ⟨800, 1000, 1200, 1500, 2⟩ 137 41).2 = (137, 41) :=
  ⟨by norm_num,
    forward_reverse_round_trip ⟨800, 1000, 1200, 1500, 2⟩ 137 41
      (by norm_num) (by norm_num) (by norm_num) (by norm_num) (by norm_num)⟩

/-! ## Corner-handle resize (handleResizeMouseDown) -/

/-- The four corner handles passed to `handleResizeMouseDown`. -/
inductive Corner where
  | topRight : Corner
  | bottomRight : Corner
  | bottomLeft : Corner
  | topLeft : Corner

/-- Whether the handle string contains the substring right, as tested by
the first `handle.includes` branch. -/
def hasRight : Corner → Bool
  | Corner.topRight => true
  | Corner.bottomRight => true
  | Corner.bottomLeft => false
  | Corner.topLeft => false

/-- Whether the handle string contains the substring left. -/
def hasLeft : Corner → Bool
  | Corner.topRight => false
  | Corner.bottomRight => false
  | Corner.bottomLeft => true
  | Corner.topLeft => true

/-- Whether the handle string contains the substring bottom. -/
def hasBottom : Corner → Bool
  | Corner.topRight => false
  | Corner.bottomRight => true
  | Corner.bottomLeft => true
  | Corner.topLeft => false

/-- Whether the handle string contains the substring top. -/
def hasTop : Corner → Bool
  | Corner.topRight => true
  | Corner.bottomRight => false
  | Corner.bottomLeft => false
  | Corner.topLeft => true

/-- One pointer-move step of the resize handler: screen deltas are
converted to stored units with the ratios captured at mouse-down, then the
branches on the handle string update width and height from the starting
size, clamped with `Math.max(50, _)` / `Math.max(30, _)`.  `dxScreen` and
`dyScreen` are `e.clientX - startX` and `e.clientY - startY`. -/
def resizeMove (corner : Corner) (startWidth startHeight : ℚ)
    (scaleX scaleY : ℚ) (dxScreen dyScreen : ℚ) : ℚ × ℚ :=
  let deltaX := dxScreen / scaleX
  let deltaY := dyScreen / scaleY
  let w0 := startWidth
  let h0 := startHeight
  let w1 := if hasRight corner then max 50 (startWidth + deltaX) else w0
  let w2 := if hasLeft corner then max 50 (startWidth - deltaX) else w1
  let h1 := if hasBottom corner then max 30 (startHeight + deltaY) else h0
  let h2 := if hasTop corner then max 30 (startHeight - deltaY) else h1
  (w2, h2)

/-- Modelled from the spec's words for claim C4 (refinement target): the
unclamped new width, the starting width plus the screen-space horizontal
delta divided by `scaleX`, with the sign flipped for a left handle. -/
def resizeWidthComputed (corner : Corner) (startWidth scaleX dxScreen : ℚ) : ℚ :=
  startWidth + (if hasLeft corner then -(dxScreen / scaleX) else dxScreen / scaleX)

/-- Modelled from the spec's words for claim C4 (refinement target): the
unclamped new height, analogous to `resizeWidthComputed`, with the sign
flipped for a top handle. -/
def resizeHeightComputed (corner : Corner) (startHeight scaleY dyScreen : ℚ) : ℚ :=
  startHeight + (if hasTop corner then -(dyScreen / scaleY) else dyScreen / scaleY)

/-- Claim C4: each resize pointer-move stores exactly the spec's formula,
the clamped `max 50` / `max 30` of the signed screen delta divided by the
captured ratios; the stored width never falls below 50 nor the height
below 30, and a computed value below the floor clamps exactly at the
floor. -/
theorem resize_floor_clamp (corner : Corner) (startWidth startHeight : ℚ)
    (scaleX scaleY : ℚ) (dxScreen dyScreen : ℚ) :
    resizeMove corner startWidth startHeight scaleX scaleY dxScreen dyScreen =
        (max 50 (resizeWidthComputed corner startWidth scaleX dxScreen),
         max 30 (resizeHeightComputed corner startHeight scaleY dyScreen)) ∧
      50 ≤ (resizeMove corner startWidth startHeight scaleX scaleY dxScreen dyScreen).1 ∧
      30 ≤ (resizeMove corner startWidth startHeight scaleX scaleY dxScreen dyScreen).2 ∧
      (resizeWidthComputed corner startWidth scaleX dxScreen < 50 →
        (resizeMove corner startWidth startHeight scaleX scaleY dxScreen dyScreen).1 = 50) ∧
      (resizeHeightComputed corner startHeight scaleY dyScreen < 30 →
        (resizeMove corner startWidth startHeight scaleX scaleY dxScreen dyScreen).2 = 30) := by
  have hmain : resizeMove corner startWidth startHeight scaleX scaleY dxScreen dyScreen =
      (max 50 (resizeWidthComputed corner startWidth scaleX dxScreen),
       max 30 (resizeHeightComputed corner startHeight scaleY dyScreen)) := by
    cases corner <;>
      simp [resizeMove, resizeWidthComputed, resizeHeightComputed,
        hasRight, hasLeft, hasBottom, hasTop, sub_eq_add_neg]
  refine ⟨hmain, ?_, ?_, ?_, ?_⟩
  · rw [hmain]; exact le_max_left _ _
  · rw [hmain]; exact le_max_left _ _
  · intro hlt
    rw [hmain]
    exact max_eq_left (le_of_lt hlt)
  · intro hlt
    rw [hmain]
    exact max_eq_left (le_of_lt hlt)

/-- Witness for claim C4: dragging the bottom-right handle far up and to
the left at unit ratios computes a width of -50 and a height of -40, and
the stored size clamps to exactly (50, 30). -/
theorem resize_floor_clamp_witness :
    resizeWidthComputed Corner.bottomRight 150 1 (-200) < 50 ∧
      resizeHeightComputed Corner.bottomRight 60 1 (-100) < 30 ∧
      (resizeMove Corner.bottomRight 150 60 1 1 (-200) (-100)).1 = 50 ∧
      (resizeMove Corner.bottomRight 150 60 1 1 (-200) (-100)).2 = 30 := by
  have hw : resizeWidthComputed Corner.bottomRight 150 1 (-200) < 50 := by
    norm_num [resizeWidthComputed, hasLeft]
  have hh : resizeHeightComputed Corner.bottomRight 60 1 (-100) < 30 := by
    norm_num [resizeHeightComputed, hasTop]
  have h := resize_floor_clamp Corner.bottomRight 150 60 1 1 (-200) (-100)
  exact ⟨hw, hh, h.2.2.2.1 hw, h.2.2.2.2 hh⟩

/-! ## Field drag (handleFieldMouseDown) -/

/-- The pointer-to-field-origin offset captured at mouse-down:
`e.clientX - rect.left - field.x * scaleX` (and the analogue for y). -/
def dragOffset (clientDown rectEdge fieldPos scaleAxis : ℚ) : ℚ :=
  clientDown - rectEdge - fieldPos * scaleAxis

/-- One pointer-move step of the drag handler along one axis: the stored
coordinate becomes `Math.max(0, (e.clientX - rect.left - offset) / scaleX)`
(the clamp is applied by the `updateFieldPosition` call). -/
def dragMove (clientMove rectEdge offset scaleAxis : ℚ) : ℚ :=
  max 0 ((clientMove - rectEdge - offset) / scaleAxis)

/-- The stored coordinate along one axis after a whole sequence of
pointer-move events: each event overwrites the coordinate, so the result
is determined by the last event (folded for faithfulness to the repeated
`updateFieldPosition` calls). -/
def dragSequenceFinal (rectEdge offset scaleAxis start : ℚ) (moves : List ℚ) : ℚ :=
  moves.foldl (fun _ c => dragMove c rectEdge offset scaleAxis) start

lemma dragSequenceFinal_nonneg (rectEdge offset scaleAxis : ℚ) :
    ∀ (moves : List ℚ) (start : ℚ), moves ≠ [] →
      0 ≤ dragSequenceFinal rectEdge offset scaleAxis start moves := by
  intro moves
  induction moves with
  | nil => intro start h; exact absurd rfl h
  | cons c rest ih =>
    intro start _
    cases rest with
    | nil =>
      simp only [dragSequenceFinal, List.foldl, dragMove]
      exact le_max_left _ _
    | cons c2 rest2 =>
      have hstep : dragSequenceFinal rectEdge offset scaleAxis start (c :: c2 :: rest2) =
          dragSequenceFinal rectEdge offset scaleAxis
            (dragMove c rectEdge offset scaleAxis) (c2 :: rest2) := rfl
      rw [hstep]
      exact ih (dragMove c rectEdge offset scaleAxis) (by simp)

/-- Claim C5: each drag pointer-move stores `(pointerScreen - offset) /
scale` clamped at 0 on both axes; a pointer position whose unclamped
result would be negative stores exactly 0; and after any nonempty
sequence of moves the stored coordinate is never negative. -/
theorem drag_clamp_nonneg (cx cy lx ly ox oy sx sy : ℚ) :
    (dragMove cx lx ox sx, dragMove cy ly oy sy) =
        (max 0 ((cx - lx - ox) / sx), max 0 ((cy - ly - oy) / sy)) ∧
      0 ≤ dragMove cx lx ox sx ∧ 0 ≤ dragMove cy ly oy sy ∧
      (cx - lx - ox < 0 → 0 < sx → dragMove cx lx ox sx = 0) ∧
      (cy - ly - oy < 0 → 0 < sy → dragMove cy ly oy sy = 0) ∧
      (∀ start moves, moves ≠ [] →
        0 ≤ dragSequenceFinal lx ox sx start moves) := by
  refine ⟨rfl, le_max_left _ _, le_max_left _ _, ?_, ?_, ?_⟩
  · intro hneg hpos
    rw [dragMove]
    exact max_eq_left (le_of_lt (div_neg_of_neg_of_pos hneg hpos))
  · intro hneg hpos
    rw [dragMove]
    exact max_eq_left (le_of_lt (div_neg_of_neg_of_pos hneg hpos))
  · intro start moves hne
    exact dragSequenceFinal_nonneg lx ox sx moves start hne

/-- Witness for claim C5: dragging to a pointer position 30 screen pixels
left of the captured offset with ratio 1 stores exactly 0, and a concrete
drag sequence ends nonnegative. -/
theorem drag_clamp_nonneg_witness :
    ((10 : ℚ) - 20 - 20 < 0) ∧ dragMove 10 20 20 1 = 0 ∧
      0 ≤ dragSequenceFinal 20 20 1 5 [100, -50, 3] := by
  have h := drag_clamp_nonneg 10 7 20 20 20 20 1 1
  exact ⟨by norm_num, h.2.2.2.1 (by norm_num) (by norm_num),
    h.2.2.2.2.2 5 [100, -50, 3] (by simp)⟩

/-! ## Render-token cancellation (renderAllPages in SignatureEditor.jsx
and PdfPreview.jsx)

The render loop captures its token `t` at batch start.  It suspends (and
so can be interleaved with a newer batch start) only at the two awaited
calls, `pdf.getPage` and `page.render`; the shared counter
`renderTokenRef.current` is read synchronously at the loop top and again
after `getPage`, and the page draw is committed in the same synchronous
segment as that second check.  We model time as the number of completed
awaits: `g k` is the value of `renderTokenRef.current` after `k` awaits,
`canvas p` tells whether the canvas ref for page `p` is mounted (the
`continue` branch), and a commit is recorded together with the time at
which it happens. -/

/-- The per-page render loop of `renderAllPages`, for a batch holding
token `token`, started after `c` awaits: at the loop top the token is
compared and the loop breaks when stale; a missing canvas skips the page
without suspending; after the awaited `getPage` the token is compared
again and the loop breaks without committing when stale; otherwise the
page's draw is committed (recorded with its time) and the awaited render
advances time by one more. -/
def renderAllPagesLoop (token : ℕ) (g : ℕ → ℕ) (canvas : ℕ → Bool) :
    List ℕ → ℕ → List (ℕ × ℕ)
  | [], _ => []
  | p :: rest, c =>
    if g c ≠ token then []
    else if canvas p = false then renderAllPagesLoop token g canvas rest c
    else if g (c + 1) ≠ token then []
    else (p, c + 1) :: renderAllPagesLoop token g canvas rest (c + 2)

/-- Claim C3: the shared render token only ever increases (each batch
start and each effect cleanup increments it), so if a newer batch B is
observed at time `k0` — the counter has moved past batch A's token — then
every page draw batch A commits happens strictly before `k0`: A's stale
work is detected at the per-page checks and discarded, producing no
visible effect after B starts, for every interleaving (every monotone
counter evolution `g`). -/
theorem render_token_cancellation (token k0 : ℕ) (g : ℕ → ℕ)
    (canvas : ℕ → Bool) (hmono : Monotone g) (hb : token < g k0) :
    ∀ (pages : List ℕ) (c : ℕ) (pc : ℕ × ℕ),
      pc ∈ renderAllPagesLoop token g canvas pages c → pc.2 < k0 := by
  intro pages
  induction pages with
  | nil =>
    intro c pc h
    simp [renderAllPagesLoop] at h
  | cons p rest ih =>
    intro c pc h
    rw [renderAllPagesLoop] at h
    by_cases h1 : g c ≠ token
    · rw [if_pos h1] at h
      simp at h
    · rw [if_neg h1] at h
      by_cases h2 : canvas p = false
      · rw [if_pos h2] at h
        exact ih c pc h
      · rw [if_neg h2] at h
        by_cases h3 : g (c + 1) ≠ token
        · rw [if_pos h3] at h
          simp at h
        · rw [if_neg h3] at h
          rcases List.mem_cons.mp h with hfst | hm
          · subst hfst
            show c + 1 < k0
            by_contra hlt
            push_neg at hlt
            have hge : g k0 ≤ g (c + 1) := hmono hlt
            have heq : g (c + 1) = token := not_not.mp h3
            omega
          · exact ih (c + 2) pc hm

/-- A concrete counter evolution for the cancellation witness: batch B
starts between time 2 and time 3, bumping the shared token from 1 to 2. -/
def tokenEvolution (n : ℕ) : ℕ :=
  if 3 ≤ n then 2 else 1

/-- Witness for claim C3: with batch A holding token 1 and batch B
observed at time 3 (`tokenEvolution 3 = 2 > 1`), every commit of A's loop
over two pages happens before time 3. -/
theorem render_token_cancellation_witness :
    Monotone tokenEvolution ∧ 1 < tokenEvolution 3 ∧
      ∀ pc ∈ renderAllPagesLoop 1 tokenEvolution (fun _ => true) [1, 2] 0,
        pc.2 < 3 := by
  have hmono : Monotone tokenEvolution := by
    intro a b hab
    rw [tokenEvolution, tokenEvolution]
    split <;> split <;> omega
  exact ⟨hmono, by norm_num [tokenEvolution], fun pc h =>
    render_token_cancellation 1 3 tokenEvolution (fun _ => true) hmono
      (by norm_num [tokenEvolution]) [1, 2] 0 pc h⟩

/-! ## Burn-in compositor (signature.js, addVisualSignature)

The compositor receives the list of signature fields.  A field carries
the 1-based page number, the stored editor-space rectangle, the
signature kind string and the data/text payloads — an empty string models
a missing (falsy) JavaScript value.  The `embedOk` flag models whether
the external pdf-lib `embedPng`/`embedJpg` call on the field's data
succeeds; on failure the code's per-field `catch` draws the text
fallback.  The output is the list of draw operations performed on the
document. -/

/-- A page size as returned by `page.getSize()`, in PDF points. -/
structure PageSize where
  width : ℚ
  height : ℚ

/-- A signature field as handed to `addVisualSignature`. -/
structure SigField where
  pageNumber : ℤ
  x : ℚ
  y : ℚ
  width : ℚ
  height : ℚ
  signatureType : String
  signatureData : String
  signatureText : String
  embedOk : Bool

/-- A drawing operation emitted on the PDF: `drawImage` with position and
size, or `drawText` with content, position and font size. -/
inductive DrawOp where
  | drawImage (pageNumber : ℤ) (x y width height : ℚ) (data : String)
  | drawText (pageNumber : ℤ) (content : String) (x y size : ℚ)
  deriving DecidableEq

/-- The hardcoded burn-in constant `scale = 0.75` of `addVisualSignature`. -/
def burnScale : ℚ := 0.75

/-- The hardcoded burn-in constant `devicePixelRatio = 1`. -/
def burnDpr : ℚ := 1

/-- Page lookup `pages[field.pageNumber - 1]`: a JavaScript array access
with a negative or out-of-range index yields `undefined`. -/
def pageAt (pages : List PageSize) (n : ℤ) : Option PageSize :=
  if 1 ≤ n then pages[n.toNat - 1]? else none

/-- The processing of one field inside the loop of `addVisualSignature`:
page lookup (skipping missing pages), conversion of the stored rectangle
by the hardcoded constants, the bottom-left-origin flip
`y = pageHeight - pdfY - pdfHeight`, and the dispatch on the signature
kind string, with the per-field embed failure `catch` and the
missing-payload placeholder. -/
def processField (pages : List PageSize) (f : SigField) : List DrawOp :=
  match pageAt pages f.pageNumber with
  | none => []
  | some page =>
    let pageHeight := page.height
    let pdfX := f.x / burnScale / burnDpr
    let pdfY := f.y / burnScale / burnDpr
    let pdfWidth := f.width / burnScale / burnDpr
    let pdfHeight := f.height / burnScale / burnDpr
    let x := pdfX
    let y := pageHeight - pdfY - pdfHeight
    if f.signatureData ≠ "" ∧ f.signatureType ≠ "" then
      if f.signatureType = "image" ∧ f.signatureData ≠ "" then
        if f.embedOk then
          [DrawOp.drawImage f.pageNumber x y pdfWidth pdfHeight f.signatureData]
        else
          [DrawOp.drawText f.pageNumber
            (if f.signatureText ≠ "" then f.signatureText else "Signature")
            (x + 5) (y + pdfHeight / 2) (min (pdfHeight / 3) 16)]
      else if f.signatureType = "text" ∧ f.signatureText ≠ "" then
        [DrawOp.drawText f.pageNumber f.signatureText (x + 5)
          (y + pdfHeight / 2 - min (pdfHeight / 2) 20 / 2) (min (pdfHeight / 2) 20)]
      else if f.signatureType = "type" ∧ (f.signatureData ≠ "" ∨ f.signatureText ≠ "") then
        if f.signatureText ≠ "" then
          [DrawOp.drawText f.pageNumber f.signatureText (x + 5)
            (y + pdfHeight / 2 - min (pdfHeight / 2) 20 / 2) (min (pdfHeight / 2) 20)]
        else []
      else if f.signatureType = "draw" ∧ f.signatureData ≠ "" then
        if f.embedOk then
          [DrawOp.drawImage f.pageNumber x y pdfWidth pdfHeight f.signatureData]
        else
          [DrawOp.drawText f.pageNumber "Signature" (x + 5) (y + pdfHeight / 2)
            (min (pdfHeight / 3) 16)]
      else []
    else
      [DrawOp.drawText f.pageNumber "Signature" (x + 5) (y + pdfHeight / 2)
        (min (pdfHeight / 3) 16)]

/-- The whole field loop of `addVisualSignature`: the draw operations of
all fields, in order. -/
def addVisualSignature (pages : List PageSize) : List SigField → List DrawOp
  | [] => []
  | f :: rest => processField pages f ++ addVisualSignature pages rest

/-- Claim C2: for a field on an existing page, the burn-in compositor
derives the PDF-space rectangle from the stored rectangle with the
hardcoded constants and draws at the vertically flipped coordinate
`pageHeight - pdfY - pdfHeight`; the image case places the image exactly
there, the text case is anchored from the same flipped coordinate, and a
field stored at `y = 0` is drawn at `pageHeight - pdfHeight`. -/
theorem burn_in_vertical_flip (pages : List PageSize) (f : SigField) (page : PageSize)
    (hp : pageAt pages f.pageNumber = some page) :
    (f.signatureType = "image" → f.signatureData ≠ "" → f.embedOk = true →
      processField pages f =
        [DrawOp.drawImage f.pageNumber (f.x / burnScale / burnDpr)
          (page.height - f.y / burnScale / burnDpr - f.height / burnScale / burnDpr)
          (f.width / burnScale / burnDpr) (f.height / burnScale / burnDpr)
          f.signatureData]) ∧
    (f.signatureType = "text" → f.signatureData ≠ "" → f.signatureText ≠ "" →
      processField pages f =
        [DrawOp.drawText f.pageNumber f.signatureText
          (f.x / burnScale / burnDpr + 5)
          ((page.height - f.y / burnScale / burnDpr - f.height / burnScale / burnDpr) +
            f.height / burnScale / burnDpr / 2 -
            min (f.height / burnScale / burnDpr / 2) 20 / 2)
          (min (f.height / burnScale / burnDpr / 2) 20)]) ∧
    (f.y = 0 →
      page.height - f.y / burnScale / burnDpr - f.height / burnScale / burnDpr =
        page.height - f.height / burnScale / burnDpr) := by
  refine ⟨?_, ?_, ?_⟩
  · intro h1 h2 h3
    simp [processField, hp, h1, h2, h3,
      show ("image" : String) ≠ "" from by decide]
  · intro h1 h2 h3
    simp [processField, hp, h1, h2, h3,
      show ("text" : String) ≠ "" from by decide,
      show ("text" : String) ≠ "image" from by decide]
  · intro hy
    simp [hy]

/-- Witness for claim C2: a 150×60 field stored at (30, 0) on a 600×800
page, with an embeddable image payload, is drawn at PDF coordinates
(40, 720) with size 200×80 — that is, at `pageHeight - height` in
bottom-left-origin PDF space. -/
theorem burn_in_vertical_flip_witness :
    processField [⟨600, 800⟩] ⟨1, 30, 0, 150, 60, "image", "d", "", true⟩ =
      [DrawOp.drawImage 1 40 720 200 80 "d"] := by
  have h := (burn_in_vertical_flip [⟨600, 800⟩]
    ⟨1, 30, 0, 150, 60, "image", "d", "", true⟩ ⟨600, 800⟩ rfl).1
    rfl (by decide) rfl
  rw [h]
  norm_num [burnScale, burnDpr]

lemma pageAt_eq_none (pages : List PageSize) (n : ℤ)
    (h : n < 1 ∨ (pages.length : ℤ) < n) : pageAt pages n = none := by
  by_cases h1 : 1 ≤ n
  · rw [pageAt, if_pos h1]
    apply List.getElem?_eq_none
    omega
  · rw [pageAt, if_neg h1]

/-- Claim C6: a field whose page number does not identify an existing
page (below 1 or above the page count) is silently skipped by the burn-in
compositor: it contributes no draw operation, no failure is produced (the
compositor is a total function here), and the remaining fields are
processed exactly as if the field were absent. -/
theorem missing_page_field_skipped (pages : List PageSize)
    (fs1 fs2 : List SigField) (f : SigField)
    (hf : f.pageNumber < 1 ∨ (pages.length : ℤ) < f.pageNumber) :
    addVisualSignature pages (fs1 ++ f :: fs2) =
      addVisualSignature pages (fs1 ++ fs2) := by
  have hnone : processField pages f = [] := by
    simp [processField, pageAt_eq_none pages f.pageNumber hf]
  induction fs1 with
  | nil => simp [addVisualSignature, hnone]
  | cons g rest ih => simp [addVisualSignature, ih]

/-- Witness for claim C6: on a one-page document, a field targeting page
5 is dropped and the following field is still processed. -/
theorem missing_page_field_skipped_witness :
    ((5 : ℤ) < 1 ∨ ((1 : ℤ) < 5)) ∧
      addVisualSignature [⟨600, 800⟩]
          [⟨5, 0, 0, 150, 60, "text", "d", "Hello", true⟩,
           ⟨1, 0, 0, 150, 60, "text", "d", "Hello", true⟩] =
        addVisualSignature [⟨600, 800⟩]
          [⟨1, 0, 0, 150, 60, "text", "d", "Hello", true⟩] :=
  ⟨Or.inr (by decide),
    missing_page_field_skipped [⟨600, 800⟩] []
      [⟨1, 0, 0, 150, 60, "text", "d", "Hello", true⟩]
      ⟨5, 0, 0, 150, 60, "text", "d", "Hello", true⟩ (Or.inr (by decide))⟩

/-- Counterexample for claim C8 as stated: a field with the unsupported
signature kind string svg and a nonempty payload is NOT replaced by a
text placeholder — it produces no draw operation at all — although the
following field is still processed. -/
theorem unsupported_kind_no_placeholder_counterexample :
    processField [⟨600, 800⟩] ⟨1, 0, 0, 150, 60, "svg", "blob", "T", true⟩ = [] ∧
      addVisualSignature [⟨600, 800⟩]
          [⟨1, 0, 0, 150, 60, "svg", "blob", "T", true⟩,
           ⟨1, 0, 0, 150, 60, "text", "d", "Hello", true⟩] =
        addVisualSignature [⟨600, 800⟩]
          [⟨1, 0, 0, 150, 60, "text", "d", "Hello", true⟩] := by
  constructor
  · simp [processField, pageAt,
      show ("svg" : String) ≠ "" from by decide,
      show ("blob" : String) ≠ "" from by decide,
      show ("svg" : String) ≠ "image" from by decide,
      show ("svg" : String) ≠ "text" from by decide,
      show ("svg" : String) ≠ "type" from by decide,
      show ("svg" : String) ≠ "draw" from by decide]
  · show processField [⟨600, 800⟩] ⟨1, 0, 0, 150, 60, "svg", "blob", "T", true⟩ ++
        addVisualSignature [⟨600, 800⟩] [⟨1, 0, 0, 150, 60, "text", "d", "Hello", true⟩] =
      addVisualSignature [⟨600, 800⟩] [⟨1, 0, 0, 150, 60, "text", "d", "Hello", true⟩]
    simp [processField, pageAt,
      show ("svg" : String) ≠ "" from by decide,
      show ("blob" : String) ≠ "" from by decide,
      show ("svg" : String) ≠ "image" from by decide,
      show ("svg" : String) ≠ "text" from by decide,
      show ("svg" : String) ≠ "type" from by decide,
      show ("svg" : String) ≠ "draw" from by decide]

/-- Claim C8 (amended): per-field outcomes never abort the whole burn-in
run — every field is processed independently and the loop is total.  An
embed failure on an image-kind or draw-kind field is caught for that
field alone and replaced by a plain text fallback at the field's
location; a field with a missing (falsy) payload gets the plain
`Signature` placeholder; but a field with an unsupported kind string is
silently skipped with no placeholder. -/
theorem per_field_fallback (pages : List PageSize) (f : SigField) (page : PageSize)
    (hp : pageAt pages f.pageNumber = some page) :
    (f.signatureType = "image" → f.signatureData ≠ "" → f.embedOk = false →
      processField pages f =
        [DrawOp.drawText f.pageNumber
          (if f.signatureText ≠ "" then f.signatureText else "Signature")
          (f.x / burnScale / burnDpr + 5)
          ((page.height - f.y / burnScale / burnDpr - f.height / burnScale / burnDpr) +
            f.height / burnScale / burnDpr / 2)
          (min (f.height / burnScale / burnDpr / 3) 16)]) ∧
    (f.signatureType = "draw" → f.signatureData ≠ "" → f.embedOk = false →
      processField pages f =
        [DrawOp.drawText f.pageNumber "Signature"
          (f.x / burnScale / burnDpr + 5)
          ((page.height - f.y / burnScale / burnDpr - f.height / burnScale / burnDpr) +
            f.height / burnScale / burnDpr / 2)
          (min (f.height / burnScale / burnDpr / 3) 16)]) ∧
    (f.signatureData = "" →
      processField pages f =
        [DrawOp.drawText f.pageNumber "Signature"
          (f.x / burnScale / burnDpr + 5)
          ((page.height - f.y / burnScale / burnDpr - f.height / burnScale / burnDpr) +
            f.height / burnScale / burnDpr / 2)
          (min (f.height / burnScale / burnDpr / 3) 16)]) ∧
    (f.signatureData ≠ "" → f.signatureType ≠ "" → f.signatureType ≠ "image" →
      f.signatureType ≠ "text" → f.signatureType ≠ "type" → f.signatureType ≠ "draw" →
      processField pages f = []) ∧
    (∀ rest, addVisualSignature pages (f :: rest) =
      processField pages f ++ addVisualSignature pages rest) := by
  refine ⟨?_, ?_, ?_, ?_, fun rest => rfl⟩
  · intro h1 h2 h3
    simp [processField, hp, h1, h2, h3,
      show ("image" : String) ≠ "" from by decide]
  · intro h1 h2 h3
    simp [processField, hp, h1, h2, h3,
      show ("draw" : String) ≠ "" from by decide,
      show ("draw" : String) ≠ "image" from by decide,
      show ("draw" : String) ≠ "text" from by decide,
      show ("draw" : String) ≠ "type" from by decide]
  · intro h1
    simp [processField, hp, h1]
  · intro h1 h2 h3 h4 h5 h6
    simp [processField, hp, h1, h2, h3, h4, h5, h6]

/-- Witness for claim C8 (amended): an image-kind field whose embed call
fails, stored at (30, 0) with size 150×60 on a 600×800 page and with no
fallback text, is replaced by the plain `Signature` text at (45, 760)
with font size 16, for that field alone. -/
theorem per_field_fallback_witness :
    processField [⟨600, 800⟩] ⟨1, 30, 0, 150, 60, "image", "d", "", false⟩ =
      [DrawOp.drawText 1 "Signature" 45 760 16] := by
  have h := (per_field_fallback [⟨600, 800⟩]
    ⟨1, 30, 0, 150, 60, "image", "d", "", false⟩ ⟨600, 800⟩ rfl).1
    rfl (by decide) rfl
  rw [h]
  norm_num [burnScale, burnDpr]

/-! ## Download/save operation (main/index.js, documents:download handler)

The handler shows a save dialog; when the dialog was not cancelled and a
path was chosen it copies the signed file there, otherwise it returns a
failure record with the fixed message `Download cancelled`.  The copy
itself may fail with an underlying message (the `catch` branch). -/

/-- Result of `dialog.showSaveDialog`: the `canceled` flag and the chosen
file path (absent when none was chosen). -/
structure SaveDialogResult where
  canceled : Bool
  filePath : Option String

/-- Result record of the download handler: `{success:true, savedPath}` or
`{success:false, error}`. -/
inductive DownloadResult where
  | ok (savedPath : String) : DownloadResult
  | err (msg : String) : DownloadResult
  deriving DecidableEq

/-- Whether a download result is the error shape `{success:false, error}`. -/
def DownloadResult.isError : DownloadResult → Bool
  | DownloadResult.ok _ => false
  | DownloadResult.err _ => true

/-- The `documents:download` handler: `copyFile` models the awaited
`fs.copyFile` call, returning either unit or the thrown error's message. -/
def downloadHandler (d : SaveDialogResult)
    (copyFile : String → Except String Unit) : DownloadResult :=
  match d.canceled, d.filePath with
  | false, some p =>
    match copyFile p with
    | Except.ok _ => DownloadResult.ok p
    | Except.error e => DownloadResult.err e
  | _, _ => DownloadResult.err "Download cancelled"

/-- Counterexample for claim C7 as stated: when the user cancels the save
dialog the handler returns the error outcome
`{success:false, error:"Download cancelled"}` — an error-shaped result,
not a non-error outcome (and the renderer surfaces it through the same
error path as genuine failures). -/
theorem download_cancel_error_counterexample :
    downloadHandler ⟨true, some "/tmp/doc_signed.pdf"⟩ (fun _ => Except.ok ()) =
        DownloadResult.err "Download cancelled" ∧
      (downloadHandler ⟨true, some "/tmp/doc_signed.pdf"⟩
        (fun _ => Except.ok ())).isError = true :=
  ⟨rfl, rfl⟩

/-- Claim C7 (amended): user cancellation of the save dialog is reported
as the error outcome with the fixed message `Download cancelled`,
through the same `{success:false, error}` channel as genuine save
failures, which carry the underlying failure message; only a completed
copy yields a success outcome. -/
theorem download_cancel_reported_as_error (d : SaveDialogResult)
    (copyFile : String → Except String Unit) :
    (d.canceled = true →
      downloadHandler d copyFile = DownloadResult.err "Download cancelled") ∧
    (d.filePath = none →
      downloadHandler d copyFile = DownloadResult.err "Download cancelled") ∧
    (∀ p e, d.canceled = false → d.filePath = some p → copyFile p = Except.error e →
      downloadHandler d copyFile = DownloadResult.err e) ∧
    (∀ p, d.canceled = false → d.filePath = some p → copyFile p = Except.ok () →
      downloadHandler d copyFile = DownloadResult.ok p) := by
  refine ⟨?_, ?_, ?_, ?_⟩
  · intro hc
    rw [downloadHandler, hc]
  · intro hf
    rw [downloadHandler, hf]
    cases d.canceled <;> rfl
  · intro p e hc hf hcopy
    simp [downloadHandler, hc, hf, hcopy]
  · intro p hc hf hcopy
    simp [downloadHandler, hc, hf, hcopy]

/-- Witness for claim C7 (amended): a cancelled dialog yields the fixed
cancellation error, and a failing copy yields its underlying message. -/
theorem download_cancel_reported_as_error_witness :
    downloadHandler ⟨true, none⟩ (fun _ => Except.ok ()) =
        DownloadResult.err "Download cancelled" ∧
      downloadHandler ⟨false, some "/home/u/out.pdf"⟩
          (fun _ => Except.error "disk full") =
        DownloadResult.err "disk full" :=
  ⟨(download_cancel_reported_as_error ⟨true, none⟩ (fun _ => Except.ok ())).1 rfl,
    (download_cancel_reported_as_error ⟨false, some "/home/u/out.pdf"⟩
      (fun _ => Except.error "disk full")).2.2.1 "/home/u/out.pdf" "disk full"
      rfl rfl rfl⟩

/-! ## Sign operation file effects (main/index.js documents:sign handler
and signature.js signDocument)

The handler parses the incoming file path into directory, stem and
extension (`path.parse`), derives the output path
`dir/name_signed.ext`, and `signDocument` reads the original file,
writes the burned-in bytes to the output path and a JSON sidecar to
`outputPath.replace(".pdf", "_signature_metadata.json")` — a JavaScript
`String.replace` that rewrites only the first occurrence.  The file
system is modelled as a partial map from paths to byte lists; the
original path is reconstituted from its parsed components as
`dir ++ "/" ++ name ++ ext`, which is how `path.parse` decomposes a
normal absolute file path. -/

/-- Parsed path components as produced by `path.parse`: directory, stem
(`name`) and extension (with its leading dot). -/
structure ParsedPath where
  dir : String
  name : String
  ext : String

/-- `path.join(dir, base)` for a directory without trailing separator. -/
def dirJoin (dir base : String) : String := dir ++ "/" ++ base

/-- The path the handler was invoked with, reconstituted from its parsed
components. -/
def originalPathOf (p : ParsedPath) : String := dirJoin p.dir (p.name ++ p.ext)

/-- The output path chosen by the `documents:sign` handler:
`join(dir, name ++ "_signed" ++ ext)`. -/
def outputPathFor (p : ParsedPath) : String :=
  dirJoin p.dir (p.name ++ "_signed" ++ p.ext)

/-- Whether the second list starts with the first (character match), as
used to locate the first occurrence of a `String.replace` pattern. -/
def listStartsWith : List Char → List Char → Bool
  | [], _ => true
  | _ :: _, [] => false
  | p :: ps, c :: cs => p == c && listStartsWith ps cs

/-- JavaScript `String.replace` with a string pattern: replace the first
occurrence of `pat` (if any) by `rep`, scanning left to right. -/
def replaceFirstAux (pat rep : List Char) : List Char → List Char
  | [] => []
  | c :: rest =>
    if listStartsWith pat (c :: rest) then rep ++ (c :: rest).drop pat.length
    else c :: replaceFirstAux pat rep rest

/-- `s.replace(pat, rep)` on strings (first occurrence only). -/
def replaceFirst (s pat rep : String) : String :=
  String.mk (replaceFirstAux pat.data rep.data s.data)

/-- The sidecar metadata path of `signDocument`:
`outputPath.replace(".pdf", "_signature_metadata.json")`. -/
def metadataPathFor (outputPath : String) : String :=
  replaceFirst outputPath ".pdf" "_signature_metadata.json"

/-- A file system: a partial map from paths to file bytes. -/
abbrev FileSys := String → Option (List ℕ)

/-- Writing one file. -/
def fsWrite (fs : FileSys) (path : String) (b : List ℕ) : FileSys :=
  fun q => if q = path then some b else fs q

/-- Outcome record of the sign operation. -/
structure SignOutcome where
  success : Bool
  signedFilePath : Option String

/-- The sign operation's file effects: read the original file (failing
cleanly when absent, the `catch` branch), burn the signatures into the
bytes (`burnIn` abstracts `addVisualSignature` plus `pdfDoc.save`),
write the signed bytes to the output path and the metadata JSON
(`metaBytes`) to the sidecar path. -/
def signDocumentFS (burnIn : List ℕ → List ℕ) (metaBytes : List ℕ)
    (fs : FileSys) (p : ParsedPath) : FileSys × SignOutcome :=
  match fs (originalPathOf p) with
  | none => (fs, ⟨false, none⟩)
  | some bytes =>
    (fsWrite (fsWrite fs (outputPathFor p) (burnIn bytes))
        (metadataPathFor (outputPathFor p)) metaBytes,
      ⟨true, some (outputPathFor p)⟩)

/-- Repeated invocation of the sign operation on the same source path. -/
def signDocumentIter (burnIn : List ℕ → List ℕ) (metaBytes : List ℕ)
    (p : ParsedPath) : ℕ → FileSys → FileSys
  | 0, fs => fs
  | n + 1, fs => signDocumentIter burnIn metaBytes p n
      (signDocumentFS burnIn metaBytes fs p).1

lemma listStartsWith_length {pat l : List Char}
    (h : listStartsWith pat l = true) : pat.length ≤ l.length := by
  induction pat generalizing l with
  | nil => simp
  | cons p ps ih =>
    cases l with
    | nil => simp [listStartsWith] at h
    | cons c cs =>
      rw [listStartsWith, Bool.and_eq_true] at h
      have := ih h.2
      simp only [List.length_cons]
      omega

lemma replaceFirstAux_length (pat rep : List Char) (s : List Char) :
    (replaceFirstAux pat rep s).length = s.length ∨
      (replaceFirstAux pat rep s).length + pat.length = s.length + rep.length := by
  induction s with
  | nil => left; rfl
  | cons c rest ih =>
    rw [replaceFirstAux]
    by_cases hp : listStartsWith pat (c :: rest) = true
    · rw [if_pos hp]
      right
      have hle : pat.length ≤ (c :: rest).length := listStartsWith_length hp
      simp only [List.length_append, List.length_drop, List.length_cons] at hle ⊢
      omega
    · rw [if_neg hp]
      simp only [List.length_cons]
      rcases ih with h | h
      · left; omega
      · right; omega

lemma outputPathFor_length (p : ParsedPath) :
    (outputPathFor p).length = (originalPathOf p).length + 7 := by
  have h7 : ("_signed" : String).length = 7 := rfl
  simp only [outputPathFor, originalPathOf, dirJoin, String.length_append, h7]
  omega

lemma metadataPathFor_length (s : String) :
    (metadataPathFor s).length = s.length ∨
      (metadataPathFor s).length = s.length + 20 := by
  have h := replaceFirstAux_length (".pdf").data ("_signature_metadata.json").data s.data
  have hp : (".pdf" : String).data.length = 4 := rfl
  have hr : ("_signature_metadata.json" : String).data.length = 24 := rfl
  have hm : (metadataPathFor s).length = (replaceFirstAux (".pdf").data
      ("_signature_metadata.json").data s.data).length := rfl
  have hs : s.length = s.data.length := rfl
  rw [hp, hr] at h
  rcases h with h | h
  · left; omega
  · right; omega

lemma signDocumentFS_preserves (burnIn : List ℕ → List ℕ) (metaBytes : List ℕ)
    (fs : FileSys) (p : ParsedPath) :
    (signDocumentFS burnIn metaBytes fs p).1 (originalPathOf p) =
      fs (originalPathOf p) := by
  have hlen := outputPathFor_length p
  have hne1 : originalPathOf p ≠ outputPathFor p := by
    intro h; rw [h] at hlen; omega
  have hne2 : originalPathOf p ≠ metadataPathFor (outputPathFor p) := by
    intro h
    rcases metadataPathFor_length (outputPathFor p) with hm | hm <;>
      (rw [← h] at hm; omega)
  cases hread : fs (originalPathOf p) with
  | none => simp [signDocumentFS, hread]
  | some bytes => simp [signDocumentFS, hread, fsWrite, hne1, hne2]

/-- Claim C9: the sign operation is idempotent-safe: it reads the file at
the original path, writes its result to an output path (and a sidecar
metadata path) each distinct from the original path, reports that fresh
output path on success, and — over any number of repeated calls — never
changes the bytes stored at the original path. -/
theorem sign_preserves_original (burnIn : List ℕ → List ℕ) (metaBytes : List ℕ)
    (fs : FileSys) (p : ParsedPath) :
    outputPathFor p ≠ originalPathOf p ∧
      metadataPathFor (outputPathFor p) ≠ originalPathOf p ∧
      (signDocumentFS burnIn metaBytes fs p).1 (originalPathOf p) =
        fs (originalPathOf p) ∧
      ((signDocumentFS burnIn metaBytes fs p).2.success = true →
        (signDocumentFS burnIn metaBytes fs p).2.signedFilePath =
          some (outputPathFor p)) ∧
      (∀ n, signDocumentIter burnIn metaBytes p n fs (originalPathOf p) =
        fs (originalPathOf p)) := by
  have hlen := outputPathFor_length p
  refine ⟨?_, ?_, signDocumentFS_preserves burnIn metaBytes fs p, ?_, ?_⟩
  · intro h; rw [h] at hlen; omega
  · intro h
    rcases metadataPathFor_length (outputPathFor p) with hm | hm <;>
      (rw [h] at hm; omega)
  · intro hsucc
    cases hread : fs (originalPathOf p) with
    | none => simp [signDocumentFS, hread] at hsucc
    | some bytes => simp [signDocumentFS, hread]
  · intro n
    induction n generalizing fs with
    | zero => rfl
    | succ m ih =>
      rw [signDocumentIter, ih, signDocumentFS_preserves]

/-- A one-file demo file system for the sign-operation witness. -/
def demoFileSys : FileSys :=
  fun q => if q = "/docs/contract.pdf" then some [1, 2, 3] else none

/-- The parsed components of the demo document's path. -/
def demoParsed : ParsedPath := ⟨"/docs", "contract", ".pdf"⟩

/-- Witness for claim C9: signing `/docs/contract.pdf` succeeds, reports
the distinct output path `/docs/contract_signed.pdf`, and after two
repeated calls the original file still holds its original bytes. -/
theorem sign_preserves_original_witness :
    (signDocumentFS (fun b => b) [9] demoFileSys demoParsed).2.success = true ∧
      (signDocumentFS (fun b => b) [9] demoFileSys demoParsed).2.signedFilePath =
        some (outputPathFor demoParsed) ∧
      outputPathFor demoParsed = "/docs/contract_signed.pdf" ∧
      outputPathFor demoParsed ≠ originalPathOf demoParsed ∧
      signDocumentIter (fun b => b) [9] demoParsed 2 demoFileSys
          (originalPathOf demoParsed) = some [1, 2, 3] := by
  have h := sign_preserves_original (fun b => b) [9] demoFileSys demoParsed
  refine ⟨rfl, h.2.2.2.1 rfl, rfl, h.1, ?_⟩
  rw [h.2.2.2.2 2]
  rfl
